import Mathlib

/-!
# Verification of the radicle-link fetch-plan engine and hook data format

Shallow embedding of `librad/src/git/fetch.rs` (the `Fetchspecs` planning
strategies `peek`, `signed_refs`, `replicate`) and of
`link-hooks/src/data.rs` (`Data::updated`, `Display`/`FromStr`).

Modelling conventions:
* `ext::RefLike` (a validated git reference path) is modelled as its list of
  path segments; `join` on `RefLike` is list append.
* `BTreeMap` / `BTreeSet` are modelled as association lists / lists in their
  (sorted) iteration order; the planning functions only iterate and look up,
  so the list order stands for the map's iteration order.
* The generic parameters `P` (peer id) and `R` (urn revision) of the Rust
  code stay generic; the trait bounds `&P : Into<RefLike>` and
  `Namespace::from : Urn<R> → Namespace` composed with `Into<RefLike>` become
  the explicit rendering functions `peerSeg` and `urnSeg`.
* `Namespace<R>` is a 1:1 wrapper of `Urn<R>`; references store the urn
  directly as their namespace.
-/

/-- A git reference path (`ext::RefLike`), as its list of segments. -/
abbrev RefLike := List String

/-- A git object id (`ext::Oid`), abstracted to a number. -/
abbrev Oid := Nat

/-- Modelled from the spec: the fixed vocabulary of reference categories of
`crate::git::types::Reference` (identity document, self profile, delegate-id
glob, signed refs, branch head); the source crate is not under `src/`. -/
inductive Category : Type where
  | radId : Category
  | radSelf : Category
  | radIdsGlob : Category
  | radSignedRefs : Category
  | head : String → Category
deriving DecidableEq

/-- Modelled from the spec: `crate::git::types::Reference` — a namespace
(identified with its `Urn`), an optional remote-peer scope, and a category. -/
structure Reference (P R : Type) where
  ns : R
  remote : Option P
  category : Category
deriving DecidableEq

/-- `Reference::rad_id(namespace)`: unscoped identity-root reference. -/
def Reference.rad_id {P R : Type} (ns : R) : Reference P R :=
  ⟨ns, none, .radId⟩

/-- `Reference::rad_self(namespace, remote)`: self-profile reference. -/
def Reference.rad_self {P R : Type} (ns : R) (remote : Option P) : Reference P R :=
  ⟨ns, remote, .radSelf⟩

/-- `Reference::rad_ids_glob(namespace)`: unscoped delegate-ids glob. -/
def Reference.rad_ids_glob {P R : Type} (ns : R) : Reference P R :=
  ⟨ns, none, .radIdsGlob⟩

/-- `Reference::rad_signed_refs(namespace, peer)`: signed-refs reference
scoped to `peer`. -/
def Reference.rad_signed_refs {P R : Type} (ns : R) (remote : P) : Reference P R :=
  ⟨ns, some remote, .radSignedRefs⟩

/-- `Reference::head(namespace, peer, name)`: branch head scoped to `peer`. -/
def Reference.head {P R : Type} (ns : R) (remote : P) (name : String) : Reference P R :=
  ⟨ns, some remote, .head name⟩

/-- `Reference::set_remote`: replace (or remove, with `none`) the peer scope. -/
def Reference.set_remote {P R : Type} (r : Reference P R) (remote : Option P) : Reference P R :=
  { r with remote := remote }

/-- A refspec: local side, remote side, force flag (`crate::git::types`). -/
structure Refspec (P R : Type) where
  loc : Reference P R
  rem : Reference P R
  force : Bool
deriving DecidableEq

/-- `local.refspec(remote, force)`: the receiver is the local side. -/
def Reference.refspec {P R : Type} (l : Reference P R) (rem : Reference P R)
    (force : Bool) : Refspec P R :=
  ⟨l, rem, force⟩

/-- Modelled from the spec: `crate::git::refs::Refs` (a peer's signed refs);
the planner consumes only its `heads` map from one-level branch names to the
signed object ids, in map iteration order. -/
structure Refs where
  heads : List (String × Oid)
deriving DecidableEq

/-- `ext::Qualified::from` on a one-level branch name: prefix `refs/heads`. -/
def qualifiedHead (name : String) : RefLike :=
  ["refs", "heads", name]

/-- Lookup in the advertised `remote_heads` map (`BTreeMap::get`). -/
def lookupOid (m : List (RefLike × Oid)) (k : RefLike) : Option Oid :=
  match m with
  | [] => none
  | (k₁, v) :: rest => if k₁ = k then some v else lookupOid rest k

/-- The namespaced path under which a tracked peer's signed branch is
expected in the remote listing: `refs/namespaces/<ns>` joined with either the
qualified branch name (when the tracked peer is the contacted peer) or
`refs/remotes/<tracked>` and then the qualified branch name. -/
def nameNamespaced {P R : Type} [DecidableEq P] (urnSeg : R → RefLike)
    (peerSeg : P → RefLike) (urn : R) (remote_peer tracked_peer : P)
    (name : String) : RefLike :=
  if tracked_peer = remote_peer then
    ["refs", "namespaces"] ++ urnSeg urn ++ qualifiedHead name
  else
    ["refs", "namespaces"] ++ urnSeg urn ++ ["refs", "remotes"] ++
      peerSeg tracked_peer ++ qualifiedHead name

namespace refspecs

/-- `refspecs::peek`: the three non-forced metadata refspecs, local side
scoped to the contacted peer, remote side unscoped. -/
def peek {P R : Type} (urn : R) (remote_peer : P) : List (Refspec P R) :=
  let rad_id : Reference P R := Reference.rad_id urn
  let rad_self : Reference P R := Reference.rad_self urn none
  let rad_ids : Reference P R := Reference.rad_ids_glob urn
  [ (rad_id.set_remote (some remote_peer)).refspec rad_id false,
    (rad_self.set_remote (some remote_peer)).refspec rad_self false,
    (rad_ids.set_remote (some remote_peer)).refspec rad_ids false ]

/-- `refspecs::signed_refs`: one non-forced refspec per tracked peer; local
side scoped to the tracked peer, remote side unscoped iff the tracked peer is
the contacted peer, otherwise equal to the local side. -/
def signed_refs {P R : Type} [DecidableEq P] (urn : R) (remote_peer : P)
    (tracked : List P) : List (Refspec P R) :=
  tracked.map fun tracked_peer =>
    let l := Reference.rad_signed_refs urn tracked_peer
    let rem := if tracked_peer = remote_peer then l.set_remote none else l
    l.refspec rem false

/-- `refspecs::replicate`: trust-gated forced head refspecs from the tracked
peers' signed refs, then a peek at the contacted peer, then per-delegate
peek + signed-refs plans, concatenated in that order. -/
def replicate {P R : Type} [DecidableEq P] (urnSeg : R → RefLike)
    (peerSeg : P → RefLike) (urn : R) (remote_peer : P)
    (remote_heads : List (RefLike × Oid)) (tracked_sigrefs : List (P × Refs))
    (delegates : List R) : List (Refspec P R) :=
  let signed := tracked_sigrefs.flatMap fun tp =>
    tp.2.heads.filterMap fun nt =>
      let name_namespaced :=
        nameNamespaced urnSeg peerSeg urn remote_peer tp.1 nt.1
      let targets_match := lookupOid remote_heads name_namespaced = some nt.2
      if targets_match then
        let l := Reference.head urn tp.1 nt.1
        let rem := if tp.1 = remote_peer then l.set_remote none else l
        some (l.refspec rem true)
      else
        none
  let peek_remote := peek urn remote_peer
  let dels := delegates.flatMap fun delegate_urn =>
    peek delegate_urn remote_peer ++
      signed_refs delegate_urn remote_peer (tracked_sigrefs.map Prod.fst)
  signed ++ peek_remote ++ dels

end refspecs

/-- `Fetchspecs<P, R>`: the strategy selector with its per-strategy inputs. -/
inductive Fetchspecs (P R : Type) where
  | peek : Fetchspecs P R
  | signedRefs : List P → Fetchspecs P R
  | replicate : List (RefLike × Oid) → List (P × Refs) → List R → Fetchspecs P R

/-- `Fetchspecs::refspecs`: dispatch to the selected strategy. -/
def Fetchspecs.refspecs {P R : Type} [DecidableEq P] (urnSeg : R → RefLike)
    (peerSeg : P → RefLike) (fs : Fetchspecs P R) (urn : R) (remote_peer : P) :
    List (Refspec P R) :=
  match fs with
  | .peek => refspecs.peek urn remote_peer
  | .signedRefs tracked => refspecs.signed_refs urn remote_peer tracked
  | .replicate remote_heads tracked_sigrefs delegates =>
      refspecs.replicate urnSeg peerSeg urn remote_peer remote_heads
        tracked_sigrefs delegates

/-- The per-branch emission step of `refspecs::replicate`: look the expected
namespaced path up in the advertised heads and, only when the advertised OID
equals the signed one, produce the forced head refspec (local side scoped to
the tracked peer; remote side unscoped iff the tracked peer is the contacted
peer). -/
def emitHead {P R : Type} [DecidableEq P] (urnSeg : R → RefLike)
    (peerSeg : P → RefLike) (urn : R) (remote_peer : P)
    (remote_heads : List (RefLike × Oid)) (tracked_peer : P)
    (nt : String × Oid) : Option (Refspec P R) :=
  let name_namespaced :=
    nameNamespaced urnSeg peerSeg urn remote_peer tracked_peer nt.1
  let targets_match := lookupOid remote_heads name_namespaced = some nt.2
  if targets_match then
    let l := Reference.head urn tracked_peer nt.1
    let rem := if tracked_peer = remote_peer then l.set_remote none else l
    some (l.refspec rem true)
  else
    none

/-- The refspecs that count as "the forced head refspec for branch `b` of
tracked peer `t`": forced, with local side the head reference for `b` scoped
to `t`. -/
def isHeadFor {P R : Type} [DecidableEq P] [DecidableEq R] (urn : R) (t : P)
    (b : String) (s : Refspec P R) : Bool :=
  s.force && decide (s.loc = Reference.head urn t b)

/-- Follows the spec's words (Replicate step 1): the trust-gated forced head
refspecs derived from the tracked peers' signed refs. -/
def trustGatedHeads {P R : Type} [DecidableEq P] (urnSeg : R → RefLike)
    (peerSeg : P → RefLike) (urn : R) (x : P) (rh : List (RefLike × Oid))
    (ts : List (P × Refs)) : List (Refspec P R) :=
  ts.flatMap fun tp =>
    tp.2.heads.filterMap (emitHead urnSeg peerSeg urn x rh tp.1)

/-- Follows the spec's words (Replicate step 3): for every delegate, its Peek
plan against the contacted peer followed by its SignedRefs plan over the same
tracked-peer set. -/
def delegatePlans {P R : Type} [DecidableEq P] (x : P) (ts : List (P × Refs))
    (ds : List R) : List (Refspec P R) :=
  ds.flatMap fun d =>
    refspecs.peek d x ++ refspecs.signed_refs d x (ts.map Prod.fst)

/-- A Rust string slice, modelled as its list of characters. -/
abbrev Str := List Char

/-- `link_hooks::Updated` (the of-update classification consumed by hooks);
modelled from the spec: only its five variants are used by `data.rs`. -/
inductive Updated : Type where
  | zero : Updated
  | created : Updated
  | deleted : Updated
  | changed : Updated
  | noChange : Updated
deriving DecidableEq

/-- `link_hooks::data::Data<R>`: the urn plus old and new revisions. The urn
type `Urn<R>` stays abstract as the parameter `U`. -/
structure Data (U R : Type) where
  urn : U
  old : R
  new : R
deriving DecidableEq

/-- `Data::updated`: classify the `(old, new)` pair by zero-ness and
equality, exactly as the source `match` with its guard does. The `IsZero`
bound becomes the explicit `isZero` function. -/
def Data.updated {U R : Type} [DecidableEq R] (isZero : R → Bool)
    (d : Data U R) : Updated :=
  match isZero d.old, isZero d.new with
  | true, true => .zero
  | true, false => .created
  | false, true => .deleted
  | false, false => if d.old ≠ d.new then .changed else .noChange

/-- `Data`'s `Display` impl: `"<urn> <old> <new>\n"`. The renderings of the
urn and revision types stay abstract as `urnStr` / `revStr`. -/
def Data.render {U R : Type} (urnStr : U → Str) (revStr : R → Str)
    (d : Data U R) : Str :=
  urnStr d.urn ++ [' '] ++ revStr d.old ++ [' '] ++ revStr d.new ++ ['\n']

/-- `link_hooks::data::error::Parse`; the boxed revision/urn error payloads
are dropped, the static messages kept. -/
inductive ParseErr : Type where
  | extra : Str → ParseErr
  | missing : String → ParseErr
  | newline : Str → ParseErr
  | revision : ParseErr
  | urn : ParseErr
deriving DecidableEq

/-- `Data`'s `FromStr` impl: split on the space character, parse the urn,
the old revision, then the new revision after stripping a mandatory trailing
newline, and reject a fourth component. The component parsers stay abstract
as `urnParse` / `revParse`. -/
def Data.fromStr {U R : Type} (urnParse : Str → Option U)
    (revParse : Str → Option R) (s : Str) : Except ParseErr (Data U R) :=
  match s.splitOn ' ' with
  | [] => .error (.missing "rad:git:<identitifier>[/<path>]")
  | c₀ :: rest =>
    match urnParse c₀ with
    | none => .error .urn
    | some u =>
      match rest with
      | [] => .error (.missing "<old>")
      | c₁ :: rest₁ =>
        match revParse c₁ with
        | none => .error .revision
        | some o =>
          match rest₁ with
          | [] => .error (.missing "<new> LF")
          | c₂ :: rest₂ =>
            if c₂.getLast? = some '\n' then
              match revParse c₂.dropLast with
              | none => .error .revision
              | some n =>
                match rest₂ with
                | c₃ :: _ => .error (.extra c₃)
                | [] => .ok ⟨u, o, n⟩
            else .error (.newline c₂)

/-- C2: the Peek strategy returns exactly three refspecs, all non-forced,
covering the identity-root, self-profile and delegate-ids-glob categories,
each with local side scoped to the contacted peer and remote side unscoped. -/
theorem peek_shape {P R : Type} [DecidableEq P] (urnSeg : R → RefLike)
    (peerSeg : P → RefLike) (urn : R) (x : P) :
    (Fetchspecs.refspecs urnSeg peerSeg .peek urn x).length = 3 ∧
    (Fetchspecs.refspecs urnSeg peerSeg .peek urn x).map (fun s => s.loc.category) =
      [.radId, .radSelf, .radIdsGlob] ∧
    ∀ s ∈ Fetchspecs.refspecs urnSeg peerSeg .peek urn x,
      s.force = false ∧ s.loc.remote = some x ∧ s.rem.remote = none ∧
        s.loc.ns = urn ∧ s.rem.ns = urn ∧ s.rem.category = s.loc.category := by
  refine ⟨rfl, rfl, ?_⟩
  intro s hs
  simp only [Fetchspecs.refspecs, refspecs.peek, List.mem_cons,
    List.not_mem_nil, or_false] at hs
  rcases hs with h | h | h <;> subst h <;>
    simp [Reference.rad_id, Reference.rad_self, Reference.rad_ids_glob,
      Reference.set_remote, Reference.refspec]

/-- `replicate` is the concatenation of the trust-gated head refspecs, the
peek at the contacted peer, and the per-delegate plans. -/
theorem replicate_decomp {P R : Type} [DecidableEq P] (urnSeg : R → RefLike)
    (peerSeg : P → RefLike) (urn : R) (x : P) (rh : List (RefLike × Oid))
    (ts : List (P × Refs)) (ds : List R) :
    refspecs.replicate urnSeg peerSeg urn x rh ts ds =
      (ts.flatMap fun tp =>
        tp.2.heads.filterMap (emitHead urnSeg peerSeg urn x rh tp.1)) ++
        refspecs.peek urn x ++
        ds.flatMap (fun d =>
          refspecs.peek d x ++ refspecs.signed_refs d x (ts.map Prod.fst)) :=
  rfl

theorem countP_isHeadFor_peek {P R : Type} [DecidableEq P] [DecidableEq R]
    (urn u : R) (t x : P) (b : String) :
    List.countP (isHeadFor urn t b) (refspecs.peek u x) = 0 := by
  apply List.countP_eq_zero.mpr
  intro s hs
  simp only [refspecs.peek, List.mem_cons, List.not_mem_nil, or_false] at hs
  rcases hs with h | h | h <;> subst h <;> simp [isHeadFor, Reference.refspec]

theorem countP_isHeadFor_signed_refs {P R : Type} [DecidableEq P]
    [DecidableEq R] (urn u : R) (t x : P) (b : String) (tracked : List P) :
    List.countP (isHeadFor urn t b) (refspecs.signed_refs u x tracked) = 0 := by
  apply List.countP_eq_zero.mpr
  intro s hs
  simp only [refspecs.signed_refs, List.mem_map] at hs
  obtain ⟨tp, _, h⟩ := hs
  subst h
  simp [isHeadFor, Reference.refspec]

theorem countP_flatMap_eq_zero {α β : Type} (p : β → Bool) (f : α → List β)
    (l : List α) (h : ∀ a ∈ l, List.countP p (f a) = 0) :
    List.countP p (l.flatMap f) = 0 := by
  induction l with
  | nil => rfl
  | cons a l ih =>
      rw [List.flatMap_cons, List.countP_append, h a (List.mem_cons_self a l),
        ih (fun b hb => h b (List.mem_cons_of_mem a hb))]

theorem countP_isHeadFor_emit_ne {P R : Type} [DecidableEq P] [DecidableEq R]
    (urnSeg : R → RefLike) (peerSeg : P → RefLike) (urn : R) (x : P)
    (rh : List (RefLike × Oid)) (T t : P) (b : String)
    (heads : List (String × Oid)) (hne : t ≠ T) :
    List.countP (isHeadFor urn T b)
      (heads.filterMap (emitHead urnSeg peerSeg urn x rh t)) = 0 := by
  apply List.countP_eq_zero.mpr
  intro s hs
  obtain ⟨nt, _, hemit⟩ := List.mem_filterMap.mp hs
  unfold emitHead at hemit
  simp only at hemit
  split at hemit
  · cases hemit
    simp [isHeadFor, Reference.refspec, Reference.head, hne]
  · cases hemit

theorem countP_isHeadFor_emit_notmem {P R : Type} [DecidableEq P]
    [DecidableEq R] (urnSeg : R → RefLike) (peerSeg : P → RefLike) (urn : R)
    (x : P) (rh : List (RefLike × Oid)) (T : P) (b : String)
    (heads : List (String × Oid)) (hb : b ∉ heads.map Prod.fst) :
    List.countP (isHeadFor urn T b)
      (heads.filterMap (emitHead urnSeg peerSeg urn x rh T)) = 0 := by
  apply List.countP_eq_zero.mpr
  intro s hs
  obtain ⟨nt, hnt, hemit⟩ := List.mem_filterMap.mp hs
  have hb1 : nt.1 ≠ b := by
    intro h
    exact hb (h ▸ List.mem_map_of_mem Prod.fst hnt)
  unfold emitHead at hemit
  simp only at hemit
  split at hemit
  · cases hemit
    simp [isHeadFor, Reference.refspec, Reference.head, hb1]
  · cases hemit

theorem countP_isHeadFor_emit_mem {P R : Type} [DecidableEq P] [DecidableEq R]
    (urnSeg : R → RefLike) (peerSeg : P → RefLike) (urn : R) (x : P)
    (rh : List (RefLike × Oid)) (T : P) (b : String) (oid₁ : Oid)
    (heads : List (String × Oid)) (hnodup : (heads.map Prod.fst).Nodup)
    (hb : (b, oid₁) ∈ heads) :
    List.countP (isHeadFor urn T b)
      (heads.filterMap (emitHead urnSeg peerSeg urn x rh T)) =
      if lookupOid rh (nameNamespaced urnSeg peerSeg urn x T b) = some oid₁
      then 1 else 0 := by
  induction heads with
  | nil => cases hb
  | cons nt rest ih =>
      simp only [List.map_cons, List.nodup_cons] at hnodup
      rcases List.mem_cons.mp hb with h | h
      · have hrest : List.countP (isHeadFor urn T b)
            (rest.filterMap (emitHead urnSeg peerSeg urn x rh T)) = 0 := by
          apply countP_isHeadFor_emit_notmem
          rw [← h] at hnodup
          exact hnodup.1
        rw [← h]
        rw [List.filterMap_cons]
        by_cases hl : lookupOid rh
            (nameNamespaced urnSeg peerSeg urn x T b) = some oid₁
        · have hemit : emitHead urnSeg peerSeg urn x rh T (b, oid₁) =
              some ((Reference.head urn T b).refspec
                (if T = x then (Reference.head urn T b).set_remote none
                 else Reference.head urn T b) true) := by
            unfold emitHead
            simp only
            rw [if_pos hl]
          rw [hemit]
          rw [List.countP_cons_of_pos]
          · rw [hrest, if_pos hl]
          · simp [isHeadFor, Reference.refspec]
        · have hemit : emitHead urnSeg peerSeg urn x rh T (b, oid₁) = none := by
            unfold emitHead
            simp only
            rw [if_neg hl]
          rw [hemit, hrest, if_neg hl]
      · have hb1 : nt.1 ≠ b := by
          intro he
          exact hnodup.1 (he ▸ List.mem_map_of_mem Prod.fst h)
        rw [List.filterMap_cons]
        have htail := ih hnodup.2 h
        cases hemit : emitHead urnSeg peerSeg urn x rh T nt with
        | none => exact htail
        | some s =>
            rw [List.countP_cons_of_neg]
            · exact htail
            · unfold emitHead at hemit
              simp only at hemit
              split at hemit
              · cases hemit
                simp [isHeadFor, Reference.refspec, Reference.head, hb1]
              · cases hemit

theorem countP_isHeadFor_signedPart {P R : Type} [DecidableEq P]
    [DecidableEq R] (urnSeg : R → RefLike) (peerSeg : P → RefLike) (urn : R)
    (x : P) (rh : List (RefLike × Oid)) (ts : List (P × Refs)) (T : P)
    (refsT : Refs) (b : String) (oid₁ : Oid)
    (hkeys : (ts.map Prod.fst).Nodup) (hmem : (T, refsT) ∈ ts)
    (hnames : (refsT.heads.map Prod.fst).Nodup)
    (hb : (b, oid₁) ∈ refsT.heads) :
    List.countP (isHeadFor urn T b)
      (ts.flatMap fun tp =>
        tp.2.heads.filterMap (emitHead urnSeg peerSeg urn x rh tp.1)) =
      if lookupOid rh (nameNamespaced urnSeg peerSeg urn x T b) = some oid₁
      then 1 else 0 := by
  induction ts with
  | nil => cases hmem
  | cons tp rest ih =>
      simp only [List.map_cons, List.nodup_cons] at hkeys
      rw [List.flatMap_cons, List.countP_append]
      rcases List.mem_cons.mp hmem with h | h
      · have hrest : List.countP (isHeadFor urn T b)
            (rest.flatMap fun tp =>
              tp.2.heads.filterMap (emitHead urnSeg peerSeg urn x rh tp.1)) =
            0 := by
          apply countP_flatMap_eq_zero
          intro a ha
          apply countP_isHeadFor_emit_ne
          intro he
          apply hkeys.1
          have hmm : a.1 ∈ List.map Prod.fst rest :=
            List.mem_map_of_mem Prod.fst ha
          rw [he] at hmm
          rw [← h]
          exact hmm
        rw [← h, hrest]
        rw [countP_isHeadFor_emit_mem urnSeg peerSeg urn x rh T b oid₁
          refsT.heads hnames hb]
        omega
      · have hT : tp.1 ≠ T := by
          intro he
          apply hkeys.1
          exact he ▸ List.mem_map_of_mem Prod.fst h
        rw [countP_isHeadFor_emit_ne urnSeg peerSeg urn x rh T tp.1 b
          tp.2.heads hT]
        rw [ih hkeys.2 h]
        omega

/-- C3: the SignedRefs strategy returns exactly one refspec per tracked peer
(in order), none forced, local side the signed-refs reference scoped to that
tracked peer; the remote side is unscoped exactly when the tracked peer is
the contacted peer, and equals the local side otherwise. -/
theorem signed_refs_shape {P R : Type} [DecidableEq P] (urnSeg : R → RefLike)
    (peerSeg : P → RefLike) (urn : R) (x : P) (tracked : List P) :
    List.Forall₂
      (fun t s =>
        s.force = false ∧ s.loc = Reference.rad_signed_refs urn t ∧
          s.rem = (if t = x
            then (Reference.rad_signed_refs urn t).set_remote none
            else Reference.rad_signed_refs (P := P) urn t))
      tracked (Fetchspecs.refspecs urnSeg peerSeg (.signedRefs tracked) urn x) := by
  simp only [Fetchspecs.refspecs, refspecs.signed_refs]
  rw [List.forall₂_map_right_iff]
  rw [List.forall₂_same]
  intro t _
  refine ⟨rfl, rfl, ?_⟩
  by_cases h : t = x <;> simp [h, Reference.refspec]

theorem countP_isHeadFor_replicate {P R : Type} [DecidableEq P] [DecidableEq R]
    (urnSeg : R → RefLike) (peerSeg : P → RefLike) (urn : R) (x : P)
    (rh : List (RefLike × Oid)) (ts : List (P × Refs)) (ds : List R) (T : P)
    (refsT : Refs) (b : String) (oid₁ : Oid)
    (hkeys : (ts.map Prod.fst).Nodup) (hmem : (T, refsT) ∈ ts)
    (hnames : (refsT.heads.map Prod.fst).Nodup)
    (hb : (b, oid₁) ∈ refsT.heads) :
    List.countP (isHeadFor urn T b)
      (refspecs.replicate urnSeg peerSeg urn x rh ts ds) =
      if lookupOid rh (nameNamespaced urnSeg peerSeg urn x T b) = some oid₁
      then 1 else 0 := by
  rw [replicate_decomp, List.countP_append, List.countP_append]
  have hdel : List.countP (isHeadFor urn T b)
      (ds.flatMap fun d =>
        refspecs.peek d x ++ refspecs.signed_refs d x (ts.map Prod.fst)) =
      0 := by
    apply countP_flatMap_eq_zero
    intro d _
    rw [List.countP_append, countP_isHeadFor_peek, countP_isHeadFor_signed_refs]
  rw [hdel, countP_isHeadFor_peek,
    countP_isHeadFor_signedPart urnSeg peerSeg urn x rh ts T refsT b oid₁
      hkeys hmem hnames hb]
  simp

/-- C1: for each tracked peer `T` and each signed branch `(b, oid₁)` of `T`,
`replicate` emits exactly one forced head refspec for `b` (local side the
head reference scoped to `T`; remote side unscoped iff `T` is the contacted
peer, else equal to the local side) if the remote listing maps the expected
namespaced path to exactly `oid₁`, and emits no refspec for `b` if the path
is absent or maps to a different OID. -/
theorem replicate_trust_gate {P R : Type} [DecidableEq P] [DecidableEq R]
    (urnSeg : R → RefLike) (peerSeg : P → RefLike) (urn : R) (x : P)
    (rh : List (RefLike × Oid)) (ts : List (P × Refs)) (ds : List R) (T : P)
    (refsT : Refs) (b : String) (oid₁ : Oid)
    (hkeys : (ts.map Prod.fst).Nodup) (hmem : (T, refsT) ∈ ts)
    (hnames : (refsT.heads.map Prod.fst).Nodup)
    (hb : (b, oid₁) ∈ refsT.heads) :
    (lookupOid rh (nameNamespaced urnSeg peerSeg urn x T b) = some oid₁ →
      List.countP (isHeadFor urn T b)
          (refspecs.replicate urnSeg peerSeg urn x rh ts ds) = 1 ∧
        (Reference.head urn T b).refspec
            (if T = x then (Reference.head urn T b).set_remote none
             else Reference.head urn T b) true
          ∈ refspecs.replicate urnSeg peerSeg urn x rh ts ds) ∧
    (lookupOid rh (nameNamespaced urnSeg peerSeg urn x T b) ≠ some oid₁ →
      List.countP (isHeadFor urn T b)
        (refspecs.replicate urnSeg peerSeg urn x rh ts ds) = 0) := by
  have hcount := countP_isHeadFor_replicate urnSeg peerSeg urn x rh ts ds T
    refsT b oid₁ hkeys hmem hnames hb
  constructor
  · intro hl
    refine ⟨by rw [hcount, if_pos hl], ?_⟩
    rw [replicate_decomp]
    apply List.mem_append_left
    apply List.mem_append_left
    apply List.mem_flatMap_of_mem hmem
    apply List.mem_filterMap.mpr
    exact ⟨(b, oid₁), hb, by simp [emitHead, hl]⟩
  · intro hl
    rw [hcount, if_neg hl]

theorem replicate_trust_gate_witness :
    (lookupOid
        [(["refs", "namespaces", "P", "refs", "remotes", "lolek", "refs",
            "heads", "mister"], 0)]
        (nameNamespaced (fun r => [r]) (fun p => [p]) "P" "tola" "lolek"
          "mister") = some 0 →
      List.countP (isHeadFor "P" "lolek" "mister")
          (refspecs.replicate (fun r => [r]) (fun p => [p]) "P" "tola"
            [(["refs", "namespaces", "P", "refs", "remotes", "lolek", "refs",
                "heads", "mister"], 0)]
            [("lolek", ⟨[("mister", 0)]⟩)] []) = 1 ∧
        (Reference.head "P" "lolek" "mister").refspec
            (if "lolek" = "tola"
             then (Reference.head "P" "lolek" "mister").set_remote none
             else Reference.head "P" "lolek" "mister") true
          ∈ refspecs.replicate (fun r => [r]) (fun p => [p]) "P" "tola"
              [(["refs", "namespaces", "P", "refs", "remotes", "lolek",
                  "refs", "heads", "mister"], 0)]
              [("lolek", ⟨[("mister", 0)]⟩)] []) ∧
    (lookupOid
        [(["refs", "namespaces", "P", "refs", "remotes", "lolek", "refs",
            "heads", "mister"], 0)]
        (nameNamespaced (fun r => [r]) (fun p => [p]) "P" "tola" "lolek"
          "mister") ≠ some 0 →
      List.countP (isHeadFor "P" "lolek" "mister")
        (refspecs.replicate (fun r => [r]) (fun p => [p]) "P" "tola"
          [(["refs", "namespaces", "P", "refs", "remotes", "lolek", "refs",
              "heads", "mister"], 0)]
          [("lolek", ⟨[("mister", 0)]⟩)] []) = 0) :=
  replicate_trust_gate (fun r => [r]) (fun p => [p]) "P" "tola"
    [(["refs", "namespaces", "P", "refs", "remotes", "lolek", "refs",
        "heads", "mister"], 0)]
    [("lolek", ⟨[("mister", 0)]⟩)] [] "lolek" ⟨[("mister", 0)]⟩ "mister" 0
    (by decide) (by decide) (by decide) (by decide)

/-- C5: the Replicate output is exactly the concatenation, in this order, of
the trust-gated forced head refspecs, the three-refspec Peek plan for the
project urn, and the per-delegate plans (each delegate's Peek followed by its
SignedRefs entries), with nothing else interleaved. -/
theorem replicate_order {P R : Type} [DecidableEq P] (urnSeg : R → RefLike)
    (peerSeg : P → RefLike) (urn : R) (x : P) (rh : List (RefLike × Oid))
    (ts : List (P × Refs)) (ds : List R) :
    refspecs.replicate urnSeg peerSeg urn x rh ts ds =
      trustGatedHeads urnSeg peerSeg urn x rh ts ++ refspecs.peek urn x ++
        delegatePlans x ts ds :=
  rfl

/-- C4: for every delegate urn `D` in the delegate set, the Replicate output
contains, contiguously, the full Peek plan for `D` against the contacted peer
followed by the full SignedRefs plan for `D` over exactly the tracked-peer
key set, regardless of the tracked peers' sigref content. -/
theorem replicate_delegate_expansion {P R : Type} [DecidableEq P]
    (urnSeg : R → RefLike) (peerSeg : P → RefLike) (urn : R) (x : P)
    (rh : List (RefLike × Oid)) (ts : List (P × Refs)) (ds : List R) (D : R)
    (hD : D ∈ ds) :
    ∃ pre post, refspecs.replicate urnSeg peerSeg urn x rh ts ds =
      pre ++
        (refspecs.peek D x ++ refspecs.signed_refs D x (ts.map Prod.fst)) ++
        post := by
  obtain ⟨s, t, hds⟩ := List.append_of_mem hD
  subst hds
  refine ⟨(ts.flatMap fun tp =>
      tp.2.heads.filterMap (emitHead urnSeg peerSeg urn x rh tp.1)) ++
      refspecs.peek urn x ++
      s.flatMap (fun d =>
        refspecs.peek d x ++ refspecs.signed_refs d x (ts.map Prod.fst)),
    t.flatMap (fun d =>
      refspecs.peek d x ++ refspecs.signed_refs d x (ts.map Prod.fst)), ?_⟩
  rw [replicate_decomp]
  simp [List.flatMap_append, List.flatMap_cons]

theorem replicate_delegate_expansion_witness :
    ∃ pre post,
      refspecs.replicate (fun r => [r]) (fun p => [p]) "P" "tola" [] []
          ["lolek-urn"] =
        pre ++
          (refspecs.peek "lolek-urn" "tola" ++
            refspecs.signed_refs "lolek-urn" "tola"
              (List.map Prod.fst ([] : List (String × Refs)))) ++
          post :=
  replicate_delegate_expansion (fun r => [r]) (fun p => [p]) "P" "tola" [] []
    ["lolek-urn"] "lolek-urn" (by decide)

/-- C7: the per-branch trust gate never fails the planning call: a tracked
peer's signed branch with no matching, OID-equal entry in the advertised
listing contributes zero refspecs to the (always completely returned) list of
the planning entry point. -/
theorem refspecs_skip_unmatched {P R : Type} [DecidableEq P] [DecidableEq R]
    (urnSeg : R → RefLike) (peerSeg : P → RefLike) (urn : R) (x : P)
    (rh : List (RefLike × Oid)) (ts : List (P × Refs)) (ds : List R) (T : P)
    (refsT : Refs) (b : String) (oid₁ : Oid)
    (hkeys : (ts.map Prod.fst).Nodup) (hmem : (T, refsT) ∈ ts)
    (hnames : (refsT.heads.map Prod.fst).Nodup)
    (hb : (b, oid₁) ∈ refsT.heads)
    (hmiss : lookupOid rh (nameNamespaced urnSeg peerSeg urn x T b) ≠
      some oid₁) :
    List.countP (isHeadFor urn T b)
      (Fetchspecs.refspecs urnSeg peerSeg (.replicate rh ts ds) urn x) = 0 := by
  have hcount := countP_isHeadFor_replicate urnSeg peerSeg urn x rh ts ds T
    refsT b oid₁ hkeys hmem hnames hb
  show List.countP (isHeadFor urn T b)
    (refspecs.replicate urnSeg peerSeg urn x rh ts ds) = 0
  rw [hcount, if_neg hmiss]

theorem refspecs_skip_unmatched_witness :
    List.countP (isHeadFor "P" "lolek" "mister")
      (Fetchspecs.refspecs (fun r => [r]) (fun p => [p])
        (.replicate [] [("lolek", ⟨[("mister", 0)]⟩)] []) "P" "tola") = 0 :=
  refspecs_skip_unmatched (fun r => [r]) (fun p => [p]) "P" "tola" []
    [("lolek", ⟨[("mister", 0)]⟩)] [] "lolek" ⟨[("mister", 0)]⟩ "mister" 0
    (by decide) (by decide) (by decide) (by decide) (by decide)

/-- C8: the planning call is deterministic — two invocations on equal inputs
(strategy with its per-strategy inputs, project urn, contacted peer) return
equal refspec lists. -/
theorem refspecs_deterministic {P R : Type} [DecidableEq P]
    (urnSeg : R → RefLike) (peerSeg : P → RefLike) (fs₁ fs₂ : Fetchspecs P R)
    (u₁ u₂ : R) (p₁ p₂ : P) (hf : fs₁ = fs₂) (hu : u₁ = u₂) (hp : p₁ = p₂) :
    Fetchspecs.refspecs urnSeg peerSeg fs₁ u₁ p₁ =
      Fetchspecs.refspecs urnSeg peerSeg fs₂ u₂ p₂ := by
  subst hf
  subst hu
  subst hp
  rfl

theorem refspecs_deterministic_witness :
    Fetchspecs.refspecs (fun r => [r]) (fun p => [p])
        (Fetchspecs.peek (P := String) (R := String)) "P" "tola" =
      Fetchspecs.refspecs (fun r => [r]) (fun p => [p]) Fetchspecs.peek "P"
        "tola" :=
  refspecs_deterministic (fun r => [r]) (fun p => [p]) Fetchspecs.peek
    Fetchspecs.peek "P" "P" "tola" "tola" rfl rfl rfl

/-- C6: the concrete scenario of the reference test fixture — project `P`,
contacted peer `tola`, tracked peers `lolek` (`mister → 0`) and `bolek`
(`mister → 0`, `next → 0`), delegates `lolek-urn` and `bolek-urn`, and the
remote listing advertising `P`'s and each delegate's `rad/id` plus lolek's
`mister` head and bolek's `mister` and `next` heads at the zero OID —
produces exactly 16 refspecs: the three forced head refspecs, the three
non-forced Peek refspecs for `P` scoped to `tola`, three Peek refspecs each
for `lolek-urn` and `bolek-urn` scoped to `tola`, and the four signed-refs
refspecs (both delegates' namespaces, from both `lolek` and `bolek`).
The tracked-sigrefs map is listed in its `BTreeMap` iteration order
(`bolek < lolek`) and the delegate set in the fixture's `BTreeSet`
iteration order (`lolek-urn` before `bolek-urn`, by `FakeId`). -/
theorem replicate_concrete_scenario :
    refspecs.replicate (fun r => [r]) (fun p => [p]) "P" "tola"
        [ (["refs", "namespaces", "P", "refs", "heads", "mister"], 0),
          (["refs", "namespaces", "P", "refs", "rad", "id"], 0),
          (["refs", "namespaces", "P", "refs", "rad", "ids", "lolek-urn"], 0),
          (["refs", "namespaces", "P", "refs", "rad", "ids", "bolek-urn"], 0),
          (["refs", "namespaces", "P", "refs", "remotes", "lolek", "refs",
              "heads", "mister"], 0),
          (["refs", "namespaces", "P", "refs", "remotes", "bolek", "refs",
              "heads", "mister"], 0),
          (["refs", "namespaces", "P", "refs", "remotes", "bolek", "refs",
              "heads", "next"], 0),
          (["refs", "namespaces", "lolek-urn", "refs", "rad", "id"], 0),
          (["refs", "namespaces", "bolek-urn", "refs", "rad", "id"], 0) ]
        [ ("bolek", ⟨[("mister", 0), ("next", 0)]⟩),
          ("lolek", ⟨[("mister", 0)]⟩) ]
        ["lolek-urn", "bolek-urn"] =
      [ ⟨⟨"P", some "bolek", .head "mister"⟩,
          ⟨"P", some "bolek", .head "mister"⟩, true⟩,
        ⟨⟨"P", some "bolek", .head "next"⟩,
          ⟨"P", some "bolek", .head "next"⟩, true⟩,
        ⟨⟨"P", some "lolek", .head "mister"⟩,
          ⟨"P", some "lolek", .head "mister"⟩, true⟩,
        ⟨⟨"P", some "tola", .radId⟩, ⟨"P", none, .radId⟩, false⟩,
        ⟨⟨"P", some "tola", .radSelf⟩, ⟨"P", none, .radSelf⟩, false⟩,
        ⟨⟨"P", some "tola", .radIdsGlob⟩, ⟨"P", none, .radIdsGlob⟩, false⟩,
        ⟨⟨"lolek-urn", some "tola", .radId⟩,
          ⟨"lolek-urn", none, .radId⟩, false⟩,
        ⟨⟨"lolek-urn", some "tola", .radSelf⟩,
          ⟨"lolek-urn", none, .radSelf⟩, false⟩,
        ⟨⟨"lolek-urn", some "tola", .radIdsGlob⟩,
          ⟨"lolek-urn", none, .radIdsGlob⟩, false⟩,
        ⟨⟨"lolek-urn", some "bolek", .radSignedRefs⟩,
          ⟨"lolek-urn", some "bolek", .radSignedRefs⟩, false⟩,
        ⟨⟨"lolek-urn", some "lolek", .radSignedRefs⟩,
          ⟨"lolek-urn", some "lolek", .radSignedRefs⟩, false⟩,
        ⟨⟨"bolek-urn", some "tola", .radId⟩,
          ⟨"bolek-urn", none, .radId⟩, false⟩,
        ⟨⟨"bolek-urn", some "tola", .radSelf⟩,
          ⟨"bolek-urn", none, .radSelf⟩, false⟩,
        ⟨⟨"bolek-urn", some "tola", .radIdsGlob⟩,
          ⟨"bolek-urn", none, .radIdsGlob⟩, false⟩,
        ⟨⟨"bolek-urn", some "bolek", .radSignedRefs⟩,
          ⟨"bolek-urn", some "bolek", .radSignedRefs⟩, false⟩,
        ⟨⟨"bolek-urn", some "lolek", .radSignedRefs⟩,
          ⟨"bolek-urn", some "lolek", .radSignedRefs⟩, false⟩ ] ∧
    ([ ⟨⟨"P", some "bolek", .head "mister"⟩,
          ⟨"P", some "bolek", .head "mister"⟩, true⟩,
        ⟨⟨"P", some "bolek", .head "next"⟩,
          ⟨"P", some "bolek", .head "next"⟩, true⟩,
        ⟨⟨"P", some "lolek", .head "mister"⟩,
          ⟨"P", some "lolek", .head "mister"⟩, true⟩,
        ⟨⟨"P", some "tola", .radId⟩, ⟨"P", none, .radId⟩, false⟩,
        ⟨⟨"P", some "tola", .radSelf⟩, ⟨"P", none, .radSelf⟩, false⟩,
        ⟨⟨"P", some "tola", .radIdsGlob⟩, ⟨"P", none, .radIdsGlob⟩, false⟩,
        ⟨⟨"lolek-urn", some "tola", .radId⟩,
          ⟨"lolek-urn", none, .radId⟩, false⟩,
        ⟨⟨"lolek-urn", some "tola", .radSelf⟩,
          ⟨"lolek-urn", none, .radSelf⟩, false⟩,
        ⟨⟨"lolek-urn", some "tola", .radIdsGlob⟩,
          ⟨"lolek-urn", none, .radIdsGlob⟩, false⟩,
        ⟨⟨"lolek-urn", some "bolek", .radSignedRefs⟩,
          ⟨"lolek-urn", some "bolek", .radSignedRefs⟩, false⟩,
        ⟨⟨"lolek-urn", some "lolek", .radSignedRefs⟩,
          ⟨"lolek-urn", some "lolek", .radSignedRefs⟩, false⟩,
        ⟨⟨"bolek-urn", some "tola", .radId⟩,
          ⟨"bolek-urn", none, .radId⟩, false⟩,
        ⟨⟨"bolek-urn", some "tola", .radSelf⟩,
          ⟨"bolek-urn", none, .radSelf⟩, false⟩,
        ⟨⟨"bolek-urn", some "tola", .radIdsGlob⟩,
          ⟨"bolek-urn", none, .radIdsGlob⟩, false⟩,
        ⟨⟨"bolek-urn", some "bolek", .radSignedRefs⟩,
          ⟨"bolek-urn", some "bolek", .radSignedRefs⟩, false⟩,
        ⟨⟨"bolek-urn", some "lolek", .radSignedRefs⟩,
          ⟨"bolek-urn", some "lolek", .radSignedRefs⟩, false⟩ ] :
      List (Refspec String String)).length = 16 := by
  constructor
  · decide
  · rfl

theorem splitOn_space_single (a : Str) (ha : ' ' ∉ a) :
    a.splitOn ' ' = [a] := by
  unfold List.splitOn
  apply List.splitOnP_eq_single
  intro y hy h
  exact ha (beq_iff_eq.mp h ▸ hy)

theorem splitOn_space_cons (a rest : Str) (ha : ' ' ∉ a) :
    (a ++ ' ' :: rest).splitOn ' ' = a :: rest.splitOn ' ' := by
  unfold List.splitOn
  apply List.splitOnP_first
  · intro y hy h
    exact ha (beq_iff_eq.mp h ▸ hy)
  · simp

/-- C9: `Data::updated` returns `Zero` iff both revisions are zero, `Created`
iff only the old one is zero, `Deleted` iff only the new one is zero,
`Changed` iff both are non-zero and distinct, and `NoChange` iff both are
non-zero and equal; being a total function into the five-variant enum,
exactly one case holds for every input. -/
theorem updated_cases {U R : Type} [DecidableEq R] (isZero : R → Bool)
    (d : Data U R) :
    (Data.updated isZero d = Updated.zero ↔
      isZero d.old = true ∧ isZero d.new = true) ∧
    (Data.updated isZero d = Updated.created ↔
      isZero d.old = true ∧ isZero d.new = false) ∧
    (Data.updated isZero d = Updated.deleted ↔
      isZero d.old = false ∧ isZero d.new = true) ∧
    (Data.updated isZero d = Updated.changed ↔
      isZero d.old = false ∧ isZero d.new = false ∧ d.old ≠ d.new) ∧
    (Data.updated isZero d = Updated.noChange ↔
      isZero d.old = false ∧ isZero d.new = false ∧ d.old = d.new) := by
  cases h₁ : isZero d.old <;> cases h₂ : isZero d.new <;>
    by_cases h₃ : d.old = d.new <;>
      simp [Data.updated, h₁, h₂, h₃] <;> rw [h₃] at h₁ <;> simp [h₁] at h₂

/-- C10: rendering a `Data` whose urn and revisions print without spaces or
newlines and re-parsing it recovers the original; and `fromStr` rejects an
input stopping after the urn with `Missing "<old>"`, one stopping after the
old revision with `Missing "<new> LF"`, one whose third component lacks the
trailing newline with `Newline`, and one carrying a fourth component with
`Extra`. -/
theorem data_render_fromStr {U R : Type} (urnStr : U → Str)
    (urnParse : Str → Option U) (revStr : R → Str) (revParse : Str → Option R)
    (d : Data U R)
    (hu : urnParse (urnStr d.urn) = some d.urn)
    (ho : revParse (revStr d.old) = some d.old)
    (hn : revParse (revStr d.new) = some d.new)
    (hus : ' ' ∉ urnStr d.urn) (hun : '\n' ∉ urnStr d.urn)
    (hos : ' ' ∉ revStr d.old) (hon : '\n' ∉ revStr d.old)
    (hns : ' ' ∉ revStr d.new) (hnn : '\n' ∉ revStr d.new) :
    Data.fromStr urnParse revParse (Data.render urnStr revStr d) =
        Except.ok d ∧
    Data.fromStr urnParse revParse (urnStr d.urn) =
        Except.error (ParseErr.missing "<old>") ∧
    Data.fromStr urnParse revParse (urnStr d.urn ++ ' ' :: revStr d.old) =
        Except.error (ParseErr.missing "<new> LF") ∧
    Data.fromStr urnParse revParse
        (urnStr d.urn ++ ' ' :: (revStr d.old ++ ' ' :: revStr d.new)) =
        Except.error (ParseErr.newline (revStr d.new)) ∧
    ∀ ex : Str, ' ' ∉ ex →
      Data.fromStr urnParse revParse
          (Data.render urnStr revStr d ++ ' ' :: ex) =
        Except.error (ParseErr.extra ex) := by
  have hnl : ' ' ∉ revStr d.new ++ ['\n'] := by
    intro h
    rcases List.mem_append.mp h with h | h
    · exact hns h
    · simp at h
  have hrender : Data.render urnStr revStr d =
      urnStr d.urn ++ ' ' ::
        (revStr d.old ++ ' ' :: (revStr d.new ++ ['\n'])) := by
    simp [Data.render]
  refine ⟨?_, ?_, ?_, ?_, ?_⟩
  · rw [hrender]
    unfold Data.fromStr
    rw [splitOn_space_cons _ _ hus, splitOn_space_cons _ _ hos,
      splitOn_space_single _ hnl]
    simp [hu, ho, hn, List.getLast?_concat, List.dropLast_concat]
  · unfold Data.fromStr
    rw [splitOn_space_single _ hus]
    simp [hu]
  · unfold Data.fromStr
    rw [splitOn_space_cons _ _ hus, splitOn_space_single _ hos]
    simp [hu, ho]
  · have hno : ¬(revStr d.new).getLast? = some '\n' := fun h =>
      hnn (List.mem_of_getLast?_eq_some h)
    unfold Data.fromStr
    rw [splitOn_space_cons _ _ hus, splitOn_space_cons _ _ hos,
      splitOn_space_single _ hns]
    simp [hu, ho, hno]
  · intro ex hex
    have heq : Data.render urnStr revStr d ++ ' ' :: ex =
        urnStr d.urn ++ ' ' ::
          (revStr d.old ++ ' ' ::
            ((revStr d.new ++ ['\n']) ++ ' ' :: ex)) := by
      simp [Data.render]
    rw [heq]
    unfold Data.fromStr
    rw [splitOn_space_cons _ _ hus, splitOn_space_cons _ _ hos,
      splitOn_space_cons _ _ hnl, splitOn_space_single _ hex]
    simp [hu, ho, hn, List.getLast?_concat, List.dropLast_concat]

theorem data_render_fromStr_witness :
    Data.fromStr
        (fun s => if s = ['a'] then some 1 else none)
        (fun s => if s = ['b'] then some 2 else
          if s = ['c'] then some 3 else none)
        (Data.render
          (fun n => if n = 1 then ['a'] else ['z'])
          (fun n => if n = 2 then ['b'] else
            if n = 3 then ['c'] else ['z'])
          (⟨1, 2, 3⟩ : Data Nat Nat)) =
      Except.ok ⟨1, 2, 3⟩ ∧
    Data.fromStr
        (fun s => if s = ['a'] then some 1 else none)
        (fun s => if s = ['b'] then some 2 else
          if s = ['c'] then some 3 else none)
        ((fun n => if n = 1 then ['a'] else ['z'])
          (⟨1, 2, 3⟩ : Data Nat Nat).urn) =
      Except.error (ParseErr.missing "<old>") ∧
    Data.fromStr
        (fun s => if s = ['a'] then some 1 else none)
        (fun s => if s = ['b'] then some 2 else
          if s = ['c'] then some 3 else none)
        ((fun n => if n = 1 then ['a'] else ['z'])
            (⟨1, 2, 3⟩ : Data Nat Nat).urn ++ ' ' ::
          (fun n => if n = 2 then ['b'] else
            if n = 3 then ['c'] else ['z'])
            (⟨1, 2, 3⟩ : Data Nat Nat).old) =
      Except.error (ParseErr.missing "<new> LF") ∧
    Data.fromStr
        (fun s => if s = ['a'] then some 1 else none)
        (fun s => if s = ['b'] then some 2 else
          if s = ['c'] then some 3 else none)
        ((fun n => if n = 1 then ['a'] else ['z'])
            (⟨1, 2, 3⟩ : Data Nat Nat).urn ++ ' ' ::
          ((fun n => if n = 2 then ['b'] else
            if n = 3 then ['c'] else ['z'])
              (⟨1, 2, 3⟩ : Data Nat Nat).old ++ ' ' ::
            (fun n => if n = 2 then ['b'] else
              if n = 3 then ['c'] else ['z'])
              (⟨1, 2, 3⟩ : Data Nat Nat).new)) =
      Except.error (ParseErr.newline
        ((fun n => if n = 2 then ['b'] else
          if n = 3 then ['c'] else ['z'])
          (⟨1, 2, 3⟩ : Data Nat Nat).new)) ∧
    ∀ ex : Str, ' ' ∉ ex →
      Data.fromStr
          (fun s => if s = ['a'] then some 1 else none)
          (fun s => if s = ['b'] then some 2 else
            if s = ['c'] then some 3 else none)
          (Data.render
            (fun n => if n = 1 then ['a'] else ['z'])
            (fun n => if n = 2 then ['b'] else
              if n = 3 then ['c'] else ['z'])
            (⟨1, 2, 3⟩ : Data Nat Nat) ++ ' ' :: ex) =
        Except.error (ParseErr.extra ex) :=
  data_render_fromStr
    (fun n => if n = 1 then ['a'] else ['z'])
    (fun s => if s = ['a'] then some 1 else none)
    (fun n => if n = 2 then ['b'] else if n = 3 then ['c'] else ['z'])
    (fun s => if s = ['b'] then some 2 else
      if s = ['c'] then some 3 else none)
    ⟨1, 2, 3⟩ (by decide) (by decide) (by decide) (by decide) (by decide)
    (by decide) (by decide) (by decide) (by decide)
